import Mathlib

/-!
Shallow embedding of the backtest simulation engine of the ai-auto-trader
repository (Go package `backtest`, file `server/backtest/account.go`, and the
run manager in the same package), together with theorems checking the
natural-language specification against it.

Go `float64` arithmetic is modelled with exact rationals (`ℚ`); `math.Sqrt`
(used only for the annualisation factor and standard deviation inside the
Sharpe/Sortino ratios) is modelled with `Real.sqrt`.  Go maps keyed by strings
are modelled as association lists: lookup returns the first binding, update
replaces the first binding (appending when absent), and delete removes all
bindings of the key.  In `ℚ`, division by zero yields zero where Go would
produce `±Inf`/`NaN`; no claim below depends on a point where that difference
is observable (this is noted where relevant).
-/

namespace BT

/-- The status of a backtest run (constants `StatusRunning` etc. of the Go
`backtest` package; the set of states is the one the spec lists). -/
inductive RunStatus where
  | pending
  | running
  | completed
  | failed
  | cancelled
deriving DecidableEq, Repr

/-- Go struct `Position` (fields as used throughout `account.go`). -/
structure Position where
  symbol : String
  side : String
  quantity : ℚ
  entryPrice : ℚ
  leverage : ℤ
  margin : ℚ
  notional : ℚ
  liquidationPrice : ℚ
  openTime : ℤ
  accumulatedFee : ℚ
deriving DecidableEq, Repr

/-- Go struct `Account` (file `account.go`): cash, the position map,
realized P&L and the two rate parameters. -/
structure Account where
  cash : ℚ
  positions : List (String × Position)
  realizedPnL : ℚ
  feeRate : ℚ
  slippageRate : ℚ
deriving DecidableEq, Repr

/-- Errors `Account` methods can return (Go returns `fmt.Errorf` values; the
spec's taxonomy names them `InvalidQuantity`, `InsufficientFunds`,
`PositionNotFound`). -/
inductive AccErr where
  | invalidQuantity
  | insufficientFunds
  | positionNotFound
deriving DecidableEq, Repr

/-- Map lookup on the association list modelling a Go `map[string]V`. -/
def lookupKey {V : Type} (ps : List (String × V)) (k : String) : Option V :=
  match ps with
  | [] => none
  | e :: rest => if e.1 = k then some e.2 else lookupKey rest k

/-- Map update: replace the first binding of `k`, append when absent. -/
def setKey {V : Type} (ps : List (String × V)) (k : String) (v : V) :
    List (String × V) :=
  match ps with
  | [] => [(k, v)]
  | e :: rest => if e.1 = k then (k, v) :: rest else e :: setKey rest k v

/-- Map delete: remove every binding of `k` (Go `delete`). -/
def eraseKey {V : Type} (ps : List (String × V)) (k : String) :
    List (String × V) :=
  match ps with
  | [] => []
  | e :: rest => if e.1 = k then eraseKey rest k else e :: eraseKey rest k

/-- Go `positionKey(symbol, side)`. -/
def positionKey (symbol side : String) : String :=
  symbol ++ "_" ++ side

/-- Go `NewAccount(initialBalance, feeBps, slippageBps)`. -/
def NewAccount (initialBalance feeBps slippageBps : ℚ) : Account :=
  { cash := initialBalance
    positions := []
    realizedPnL := 0
    feeRate := feeBps / 10000
    slippageRate := slippageBps / 10000 }

/-- Go `Account.applySlippage(price, side, isOpen)`. -/
def Account.applySlippage (a : Account) (price : ℚ) (side : String)
    (isOpen : Bool) : ℚ :=
  if a.slippageRate = 0 then price
  else if side = "long" then
    if isOpen then price * (1 + a.slippageRate) else price * (1 - a.slippageRate)
  else
    if isOpen then price * (1 - a.slippageRate) else price * (1 + a.slippageRate)

/-- Go `Account.computeLiquidationPrice(entry, leverage, side)`. -/
def Account.computeLiquidationPrice (entry : ℚ) (leverage : ℤ) (side : String) : ℚ :=
  if side = "long" then entry * (1 - 1 / (leverage : ℚ))
  else entry * (1 + 1 / (leverage : ℚ))

/-- Go `Account.Open(symbol, side, quantity, leverage, price, ts)`.
The Go method mutates the receiver and returns `(pos, fee, execPrice, err)`;
here the pair is (account after the call, returned values or error). -/
def Account.Open (a : Account) (symbol side : String) (quantity : ℚ)
    (leverage : ℤ) (price : ℚ) (ts : ℤ) :
    Account × Except AccErr (Position × ℚ × ℚ) :=
  if quantity ≤ 0 then (a, .error .invalidQuantity)
  else
    let lev := if leverage ≤ 0 then 1 else leverage
    let execPrice := a.applySlippage price side true
    let notional := execPrice * quantity
    let margin := notional / (lev : ℚ)
    let fee := notional * a.feeRate
    let required := margin + fee
    if a.cash < required then (a, .error .insufficientFunds)
    else
      let liqPrice := Account.computeLiquidationPrice execPrice lev side
      let key := positionKey symbol side
      match lookupKey a.positions key with
      | none =>
        let pos : Position :=
          { symbol := symbol
            side := side
            quantity := quantity
            entryPrice := execPrice
            leverage := lev
            margin := margin
            notional := notional
            liquidationPrice := liqPrice
            openTime := ts
            accumulatedFee := fee }
        ({ a with cash := a.cash - required
                  positions := setKey a.positions key pos },
         .ok (pos, fee, execPrice))
      | some pos =>
        let totalQty := pos.quantity + quantity
        let newEntry := (pos.entryPrice * pos.quantity + execPrice * quantity) / totalQty
        let pos' : Position :=
          { pos with
            entryPrice := newEntry
            quantity := totalQty
            margin := pos.margin + margin
            notional := pos.notional + notional
            accumulatedFee := pos.accumulatedFee + fee
            liquidationPrice :=
              Account.computeLiquidationPrice newEntry pos.leverage pos.side }
        ({ a with cash := a.cash - required
                  positions := setKey a.positions key pos' },
         .ok (pos', fee, execPrice))

/-- Go `Account.Close(symbol, side, quantity, price)`.
The pair is (account after the call, `(netRealized, totalFee, execPrice)` or
error). -/
def Account.Close (a : Account) (symbol side : String) (quantity price : ℚ) :
    Account × Except AccErr (ℚ × ℚ × ℚ) :=
  let key := positionKey symbol side
  match lookupKey a.positions key with
  | none => (a, .error .positionNotFound)
  | some pos =>
    let q := if quantity ≤ 0 ∨ pos.quantity < quantity then pos.quantity else quantity
    let execPrice := a.applySlippage price side false
    let realized :=
      if side = "long" then (execPrice - pos.entryPrice) * q
      else (pos.entryPrice - execPrice) * q
    let closeNotional := execPrice * q
    let closeFee := closeNotional * a.feeRate
    let ratio := q / pos.quantity
    let openFee := pos.accumulatedFee * ratio
    let totalFee := closeFee + openFee
    let marginReturn := pos.margin * ratio
    let netRealized := realized - totalFee
    let positions' :=
      if pos.quantity ≤ q then eraseKey a.positions key
      else
        setKey a.positions key
          { pos with
            quantity := pos.quantity - q
            margin := pos.margin - marginReturn
            notional := pos.notional - closeNotional
            accumulatedFee := pos.accumulatedFee - openFee }
    ({ a with cash := a.cash + marginReturn + realized - closeFee
              realizedPnL := a.realizedPnL + netRealized
              positions := positions' },
     .ok (netRealized, totalFee, execPrice))

/-- One iteration of the `CheckLiquidation` loop for the map entry `e`:
look the position up in the current account (entries removed earlier are
skipped, as a Go `range` over the map would skip them), compare the price
against the liquidation price and, on breach, close the whole position at the
liquidation price and delete it.  A `Close` error aborts the walk as in Go. -/
def Account.checkLiquidationAux (pm : List (String × ℚ)) :
    Account → List (String × Position) → Account × Option AccErr
  | acc, [] => (acc, none)
  | acc, e :: rest =>
    match lookupKey acc.positions e.1 with
    | none => Account.checkLiquidationAux pm acc rest
    | some pos =>
      match lookupKey pm pos.symbol with
      | none => Account.checkLiquidationAux pm acc rest
      | some price =>
        let liquidated : Bool :=
          if pos.side = "long" then price ≤ pos.liquidationPrice
          else if pos.side = "short" then pos.liquidationPrice ≤ price
          else false
        if liquidated then
          match acc.Close pos.symbol pos.side pos.quantity pos.liquidationPrice with
          | (a', .error err) => (a', some err)
          | (a', .ok _) =>
            Account.checkLiquidationAux pm
              { a' with positions := eraseKey a'.positions e.1 } rest
        else Account.checkLiquidationAux pm acc rest

/-- Go `Account.CheckLiquidation(priceMap, ts, cycle)` restricted to its
effect on the account (the returned `TradeEvent` list and note are not
modelled; no claim mentions them). -/
def Account.CheckLiquidation (a : Account) (pm : List (String × ℚ)) :
    Account × Option AccErr :=
  Account.checkLiquidationAux pm a a.positions

/-- Go struct `EquityPoint` (fields as used by `CalculateMetrics`). -/
structure EquityPoint where
  timestamp : ℤ
  equity : ℚ
deriving DecidableEq, Repr

/-- Go struct `TradeEvent` (fields as produced in `account.go`). -/
structure TradeEvent where
  timestamp : ℤ
  symbol : String
  action : String
  side : String
  quantity : ℚ
  price : ℚ
  fee : ℚ
  realizedPnL : ℚ
  leverage : ℤ
  cycle : ℤ
  liquidationFlag : Bool
  note : String
deriving DecidableEq, Repr

/-- Go struct `SymbolStats`.  In Go the `LongWinRate`/`ShortWinRate` fields
double as win counters during the trade loop and are converted into
percentages at the end; the same convention is kept here. -/
structure SymbolStats where
  symbol : String
  totalTrades : ℕ
  longTrades : ℕ
  shortTrades : ℕ
  totalPnL : ℚ
  avgPnL : ℚ
  winRate : ℚ
  longWinRate : ℚ
  shortWinRate : ℚ
deriving DecidableEq, Repr

/-- Go struct `Metrics`.  The Sharpe and Sortino ratios involve
`math.Sqrt` and are modelled as reals; every other field is exact. -/
structure Metrics where
  finalEquity : ℚ
  totalReturn : ℚ
  totalReturnPct : ℚ
  maxDrawdown : ℚ
  maxDrawdownPct : ℚ
  sharpeRatio : ℝ
  sortinoRatio : ℝ
  totalTrades : ℕ
  winningTrades : ℕ
  losingTrades : ℕ
  winRate : ℚ
  totalFees : ℚ
  avgWin : ℚ
  avgLoss : ℚ
  largestWin : ℚ
  largestLoss : ℚ
  profitFactor : ℚ
  symbolStats : List (String × SymbolStats)

/-- Go helper `sum(data)`. -/
def sumF (data : List ℚ) : ℚ :=
  data.foldl (fun total v => total + v) 0

/-- Go helper `mean(data)` (0 on the empty list). -/
def mean (data : List ℚ) : ℚ :=
  if data.length = 0 then 0 else sumF data / (data.length : ℚ)

/-- The radicand of Go helper `stdDev(data)`: `Σ (v−m)² / n`, and 0 when
fewer than two points exist. -/
def varianceF (data : List ℚ) : ℚ :=
  if data.length ≤ 1 then 0
  else
    (data.foldl (fun acc v => acc + (v - mean data) * (v - mean data)) 0)
      / (data.length : ℚ)

/-- Go helper `stdDev(data)` = `math.Sqrt` of the variance. -/
noncomputable def stdDevF (data : List ℚ) : ℝ :=
  if data.length ≤ 1 then 0 else Real.sqrt (varianceF data)

/-- Go helper `max(data)` (0 on the empty list). -/
def maxF (data : List ℚ) : ℚ :=
  match data with
  | [] => 0
  | d :: rest => rest.foldl (fun m v => if m < v then v else m) d

/-- Go helper `min(data)` (0 on the empty list). -/
def minF (data : List ℚ) : ℚ :=
  match data with
  | [] => 0
  | d :: rest => rest.foldl (fun m v => if v < m then v else m) d

/-- The max-drawdown loop of `CalculateMetrics`: running peak and running
maximal drawdown fraction over the whole curve, starting with
`peak = curve[0].Equity`, `maxDD = 0`. -/
def maxDDLoop (curve : List EquityPoint) (peak maxDD : ℚ) : ℚ × ℚ :=
  curve.foldl
    (fun pd pt =>
      let peak' := if pd.1 < pt.equity then pt.equity else pd.1
      let dd := (peak' - pt.equity) / peak'
      (peak', if pd.2 < dd then dd else pd.2))
    (peak, maxDD)

/-- The per-step simple returns `(eq[i] − eq[i-1]) / eq[i-1]` of the equity
curve. -/
def returnsOf (curve : List EquityPoint) : List ℚ :=
  List.zipWith (fun prev cur => (cur.equity - prev.equity) / prev.equity)
    curve curve.tail

/-- Accumulator of the trade-statistics loop of `CalculateMetrics`. -/
structure TradeAcc where
  totalTrades : ℕ
  totalFees : ℚ
  winningTrades : ℕ
  losingTrades : ℕ
  wins : List ℚ
  losses : List ℚ
  symbolStats : List (String × SymbolStats)
deriving DecidableEq, Repr

/-- One iteration of the trade-statistics loop: liquidations and zero-P&L
events are skipped; the rest update the global and per-symbol counters. -/
def tradeStep (acc : TradeAcc) (trade : TradeEvent) : TradeAcc :=
  if trade.action = "liquidated" ∨ trade.realizedPnL = 0 then acc
  else
    let ss :=
      match lookupKey acc.symbolStats trade.symbol with
      | none =>
        { symbol := trade.symbol, totalTrades := 0, longTrades := 0
          shortTrades := 0, totalPnL := 0, avgPnL := 0, winRate := 0
          longWinRate := 0, shortWinRate := 0 : SymbolStats }
      | some ss => ss
    let ss := { ss with totalTrades := ss.totalTrades + 1
                        totalPnL := ss.totalPnL + trade.realizedPnL }
    let ss :=
      if trade.side = "long" then { ss with longTrades := ss.longTrades + 1 }
      else { ss with shortTrades := ss.shortTrades + 1 }
    if 0 < trade.realizedPnL then
      let ss :=
        if trade.side = "long" then { ss with longWinRate := ss.longWinRate + 1 }
        else { ss with shortWinRate := ss.shortWinRate + 1 }
      { acc with totalTrades := acc.totalTrades + 1
                 totalFees := acc.totalFees + trade.fee
                 winningTrades := acc.winningTrades + 1
                 wins := acc.wins ++ [trade.realizedPnL]
                 symbolStats := setKey acc.symbolStats trade.symbol ss }
    else
      { acc with totalTrades := acc.totalTrades + 1
                 totalFees := acc.totalFees + trade.fee
                 losingTrades := acc.losingTrades + 1
                 losses := acc.losses ++ [trade.realizedPnL]
                 symbolStats := setKey acc.symbolStats trade.symbol ss }

/-- The whole trade-statistics loop. -/
def tradeLoop (trades : List TradeEvent) : TradeAcc :=
  trades.foldl tradeStep
    { totalTrades := 0, totalFees := 0, winningTrades := 0, losingTrades := 0
      wins := [], losses := [], symbolStats := [] }

/-- The finalisation loop over `symbolStats`: average P&L, conversion of the
per-side win counters into percentages, and the symbol `WinRate` — which the
code computes from the account-wide `metrics.WinningTrades`. -/
def finalizeSymbolStats (globalWinningTrades : ℕ)
    (stats : List (String × SymbolStats)) : List (String × SymbolStats) :=
  stats.map (fun e =>
    let ss := e.2
    let ss := if 0 < ss.totalTrades
      then { ss with avgPnL := ss.totalPnL / (ss.totalTrades : ℚ) } else ss
    let ss := if 0 < ss.longTrades
      then { ss with longWinRate := ss.longWinRate / (ss.longTrades : ℚ) * 100 }
      else ss
    let ss := if 0 < ss.shortTrades
      then { ss with shortWinRate := ss.shortWinRate / (ss.shortTrades : ℚ) * 100 }
      else ss
    (e.1, { ss with winRate := (globalWinningTrades : ℚ) / (ss.totalTrades : ℚ) * 100 }))

/-- Go `CalculateMetrics(initialBalance, equityCurve, trades)`. -/
noncomputable def CalculateMetrics (initialBalance : ℚ)
    (equityCurve : List EquityPoint) (trades : List TradeEvent) : Metrics :=
  match equityCurve with
  | [] =>
    { finalEquity := 0, totalReturn := 0, totalReturnPct := 0, maxDrawdown := 0
      maxDrawdownPct := 0, sharpeRatio := 0, sortinoRatio := 0, totalTrades := 0
      winningTrades := 0, losingTrades := 0, winRate := 0, totalFees := 0
      avgWin := 0, avgLoss := 0, largestWin := 0, largestLoss := 0
      profitFactor := 0, symbolStats := [] }
  | first :: rest =>
    let finalEquity := ((first :: rest).getLast (by simp)).equity
    let totalReturn := finalEquity - initialBalance
    let pd := maxDDLoop (first :: rest) first.equity 0
    let maxDD := pd.2
    let returns := returnsOf (first :: rest)
    let meanRet := mean returns
    let sharpe : ℝ :=
      if 1 < (first :: rest).length then
        if 0 < stdDevF returns
        then ((meanRet : ℝ) / stdDevF returns) * Real.sqrt 252 else 0
      else 0
    let negReturns := returns.filter (fun r => r < 0)
    let sortino : ℝ :=
      if 1 < (first :: rest).length then
        if negReturns.length ≠ 0 then
          if 0 < stdDevF negReturns
          then ((meanRet : ℝ) / stdDevF negReturns) * Real.sqrt 252 else 0
        else 0
      else 0
    let t := tradeLoop trades
    { finalEquity := finalEquity
      totalReturn := totalReturn
      totalReturnPct := totalReturn / initialBalance * 100
      maxDrawdown := pd.1 * maxDD
      maxDrawdownPct := maxDD * 100
      sharpeRatio := sharpe
      sortinoRatio := sortino
      totalTrades := t.totalTrades
      winningTrades := t.winningTrades
      losingTrades := t.losingTrades
      winRate := if 0 < t.totalTrades
        then (t.winningTrades : ℚ) / (t.totalTrades : ℚ) * 100 else 0
      totalFees := t.totalFees
      avgWin := if t.wins.length ≠ 0 then sumF t.wins / (t.wins.length : ℚ) else 0
      avgLoss := if t.losses.length ≠ 0 then sumF t.losses / (t.losses.length : ℚ) else 0
      largestWin := if t.wins.length ≠ 0 then maxF t.wins else 0
      largestLoss := if t.losses.length ≠ 0 then minF t.losses else 0
      profitFactor := if 0 < |sumF t.losses|
        then sumF t.wins / |sumF t.losses| else 0
      symbolStats := finalizeSymbolStats t.winningTrades t.symbolStats }

/-- A backtest runner, abstracted to the one observation `Manager.Delete`
makes of it: the status of its metadata snapshot (`GetMetadata().Status`). -/
structure Runner where
  status : RunStatus
deriving DecidableEq, Repr

/-- Go struct `Manager` (backtest run manager): the three bookkeeping maps,
keyed by run ID.  Metadata snapshots and cancellation handles are kept
abstractly (only their presence matters to the claims). -/
structure Manager where
  runners : List (String × Runner)
  metadata : List (String × RunStatus)
  cancels : List (String × Unit)
deriving DecidableEq, Repr

/-- Errors of Manager methods named by the spec's taxonomy. -/
inductive MgrErr where
  | notFound
  | cannotDeleteRunning
deriving DecidableEq, Repr

/-- Go `Manager.Delete(runID)`: refuse when unknown or Running, otherwise
delete the run from all three maps. -/
def Manager.Delete (m : Manager) (runID : String) : Manager × Option MgrErr :=
  match lookupKey m.runners runID with
  | none => (m, some .notFound)
  | some runner =>
    if runner.status = .running then (m, some .cannotDeleteRunning)
    else
      ({ runners := eraseKey m.runners runID
         metadata := eraseKey m.metadata runID
         cancels := eraseKey m.cancels runID }, none)

/-! ## General lemmas about the association-list map model -/

theorem lookupKey_setKey_self {V : Type} (ps : List (String × V)) (k : String)
    (v : V) : lookupKey (setKey ps k v) k = some v := by
  induction ps with
  | nil => simp [setKey, lookupKey]
  | cons e rest ih =>
    by_cases h : e.1 = k
    · simp [setKey, lookupKey, h]
    · simp [setKey, lookupKey, h, ih]

theorem lookupKey_setKey_ne {V : Type} (ps : List (String × V)) (k k' : String)
    (v : V) (h : k' ≠ k) : lookupKey (setKey ps k' v) k = lookupKey ps k := by
  induction ps with
  | nil => simp [setKey, lookupKey, h]
  | cons e rest ih =>
    by_cases he : e.1 = k'
    · simp [setKey, lookupKey, he, h]
    · simp [setKey, lookupKey, he, ih]

theorem lookupKey_eraseKey_self {V : Type} (ps : List (String × V))
    (k : String) : lookupKey (eraseKey ps k) k = none := by
  induction ps with
  | nil => rfl
  | cons e rest ih =>
    by_cases h : e.1 = k
    · simpa [eraseKey, h] using ih
    · simp [eraseKey, lookupKey, h, ih]

theorem lookupKey_eraseKey_ne {V : Type} (ps : List (String × V))
    (k k' : String) (h : k' ≠ k) :
    lookupKey (eraseKey ps k') k = lookupKey ps k := by
  induction ps with
  | nil => rfl
  | cons e rest ih =>
    by_cases he : e.1 = k'
    · have hek : ¬ e.1 = k := by rw [he]; exact h
      simp [eraseKey, lookupKey, he, hek, h, ih]
    · by_cases hek : e.1 = k
      · simp [eraseKey, lookupKey, he, hek, Ne.symm h]
      · simp [eraseKey, lookupKey, he, hek, ih]

theorem mem_of_lookupKey {V : Type} {ps : List (String × V)} {k : String}
    {v : V} (h : lookupKey ps k = some v) : (k, v) ∈ ps := by
  induction ps with
  | nil => simp [lookupKey] at h
  | cons e rest ih =>
    by_cases he : e.1 = k
    · simp [lookupKey, he] at h
      cases e with
      | mk a b =>
        subst he
        subst h
        exact List.mem_cons_self _ _
    · simp [lookupKey, he] at h
      exact List.mem_cons_of_mem _ (ih h)

theorem mem_of_mem_eraseKey {V : Type} {ps : List (String × V)} {k : String}
    {e : String × V} (h : e ∈ eraseKey ps k) : e ∈ ps := by
  induction ps with
  | nil => simp [eraseKey] at h
  | cons e2 rest ih =>
    by_cases he2 : e2.1 = k
    · simp [eraseKey, he2] at h
      exact List.mem_cons_of_mem _ (ih h)
    · simp [eraseKey, he2] at h
      rcases h with h | h
      · simp [h]
      · exact List.mem_cons_of_mem _ (ih h)

/-! ## Claim C1: the reference open/close scenario -/

/-- The opening trade of the spec's reference scenario: initial balance 1000,
fee 4 bps, slippage 0; open long BTCUSDT, quantity 0.01, leverage 10, price
50000. -/
def scenarioOpen : Account × Except AccErr (Position × ℚ × ℚ) :=
  (NewAccount 1000 4 0).Open "BTCUSDT" "long" (1/100) 10 50000 0

/-- The closing trade of the reference scenario: full close at 55000. -/
def scenarioClose : Account × Except AccErr (ℚ × ℚ × ℚ) :=
  scenarioOpen.1.Close "BTCUSDT" "long" (1/100) 55000

/-- C1: in the reference scenario the open yields margin 50, fee 0.2,
cash 949.8 and liquidation price 45000; the full close at 55000 has gross
P&L 50 and closing fee 0.22, returns net realized P&L 49.58 and total fee
0.42 (= 0.22 + the 0.2 proportional opening fee), leaves cash
1049.58 = 949.8 + 50 (margin) + 50 (gross) − 0.22, and the cumulative
realized P&L accumulator equals 49.58. -/
theorem open_close_reference_scenario :
    scenarioOpen.2
      = .ok ({ symbol := "BTCUSDT", side := "long", quantity := 1/100
               entryPrice := 50000, leverage := 10, margin := 50
               notional := 500, liquidationPrice := 45000, openTime := 0
               accumulatedFee := 1/5 }, 1/5, 50000)
    ∧ scenarioOpen.1.cash = 4749/5
    ∧ (scenarioOpen.1.applySlippage 55000 "long" false - 50000) * (1/100) = 50
    ∧ scenarioOpen.1.applySlippage 55000 "long" false * (1/100)
        * scenarioOpen.1.feeRate = 11/50
    ∧ scenarioClose.2 = .ok (2479/50, 21/50, 55000)
    ∧ scenarioClose.1.cash = 4749/5 + 50 + 50 - 11/50
    ∧ scenarioClose.1.cash = 52479/50
    ∧ scenarioClose.1.realizedPnL = 2479/50
    ∧ lookupKey scenarioClose.1.positions (positionKey "BTCUSDT" "long") = none := by
  norm_num [scenarioOpen, scenarioClose, Account.Open, Account.Close,
    NewAccount, Account.applySlippage, Account.computeLiquidationPrice,
    positionKey, lookupKey, setKey, eraseKey]

/-! ## Claim C2: cash accounting and failure atomicity of `Open` -/

/-- C2: for an `Open` with positive quantity (and positive leverage, so the
code's leverage clamp is inert): when `margin + fee ≤ cash` the call succeeds
and the new cash is exactly `cash − margin − fee`; when `margin + fee`
exceeds cash it fails with `InsufficientFunds` and the whole account is
unchanged; a non-positive quantity fails with `InvalidQuantity` and the
account is unchanged. -/
theorem Open_accounting (a : Account) (symbol side : String) (q : ℚ)
    (lev : ℤ) (price : ℚ) (ts : ℤ) (hlev : 0 < lev) :
    (0 < q →
      (a.applySlippage price side true * q / (lev : ℚ)
          + a.applySlippage price side true * q * a.feeRate ≤ a.cash →
        (∃ r, (a.Open symbol side q lev price ts).2 = .ok r)
        ∧ (a.Open symbol side q lev price ts).1.cash
            = a.cash - a.applySlippage price side true * q / (lev : ℚ)
              - a.applySlippage price side true * q * a.feeRate)
      ∧ (a.cash < a.applySlippage price side true * q / (lev : ℚ)
          + a.applySlippage price side true * q * a.feeRate →
        a.Open symbol side q lev price ts = (a, .error .insufficientFunds)))
    ∧ (q ≤ 0 → a.Open symbol side q lev price ts = (a, .error .invalidQuantity)) := by
  have h2 : ¬ lev ≤ 0 := not_le.mpr hlev
  constructor
  · intro hq
    have h1 : ¬ q ≤ 0 := not_le.mpr hq
    constructor
    · intro hcash
      have h3 : ¬ a.cash < a.applySlippage price side true * q / (lev : ℚ)
          + a.applySlippage price side true * q * a.feeRate := not_lt.mpr hcash
      rcases hl : lookupKey a.positions (positionKey symbol side) with _ | pos
      · refine ⟨?_, ?_⟩
        · simp [Account.Open, h1, h2, hl, h3]
        · simp [Account.Open, h1, h2, hl, h3]
          ring
      · refine ⟨?_, ?_⟩
        · simp [Account.Open, h1, h2, hl, h3]
        · simp [Account.Open, h1, h2, hl, h3]
          ring
    · intro hcash
      simp [Account.Open, h1, h2, hcash]
  · intro hq
    simp [Account.Open, hq]

/-- Witness for C2 at the reference inputs: the hypotheses hold and the cash
after the open equals cash minus margin minus fee. -/
theorem Open_accounting_witness :
    (0 : ℤ) < 10
    ∧ ((NewAccount 1000 4 0).Open "BTCUSDT" "long" (1/100) 10 50000 0).1.cash
        = (NewAccount 1000 4 0).cash
          - (NewAccount 1000 4 0).applySlippage 50000 "long" true * (1/100) / ((10 : ℤ) : ℚ)
          - (NewAccount 1000 4 0).applySlippage 50000 "long" true * (1/100)
            * (NewAccount 1000 4 0).feeRate :=
  ⟨by decide,
   (((Open_accounting (NewAccount 1000 4 0) "BTCUSDT" "long" (1/100) 10 50000 0
        (by decide)).1 (by norm_num)).1
      (by norm_num [NewAccount, Account.applySlippage])).2⟩

/-! ## Claim C3: effect of a partial close on the position fields -/

/-- The position held after the reference opening trade. -/
def scenarioPos : Position :=
  { symbol := "BTCUSDT", side := "long", quantity := 1/100
    entryPrice := 50000, leverage := 10, margin := 50
    notional := 500, liquidationPrice := 45000, openTime := 0
    accumulatedFee := 1/5 }

/-- C3 counterexample: closing half (f = 1/2) of the reference position at
price 55000 leaves notional 225 (entry notional 500 minus the close notional
275 = 55000·0.005), not 500·(1−1/2) = 250 — the claim that the notional
shrinks by factor (1−f) fails on the code. -/
theorem partial_close_notional_not_proportional :
    Option.map Position.notional (lookupKey scenarioOpen.1.positions
        (positionKey "BTCUSDT" "long")) = some 500
    ∧ Option.map Position.notional
        (lookupKey ((scenarioOpen.1.Close "BTCUSDT" "long" (1/200) 55000).1).positions
          (positionKey "BTCUSDT" "long")) = some 225
    ∧ (225 : ℚ) ≠ 500 * (1 - (1/200 : ℚ) / (1/100)) := by
  refine ⟨?_, ?_, by norm_num⟩ <;>
    norm_num [scenarioOpen, Account.Open, Account.Close, NewAccount,
      Account.applySlippage, Account.computeLiquidationPrice, positionKey,
      lookupKey, setKey, eraseKey]

/-- C3 amended: a successful partial close of quantity `q` (0 < q < position
quantity) shrinks quantity, margin and accumulated entry fee by factor
(1 − f) where f = q / quantity; the notional decreases by the close notional
(fill price × q), which equals a (1 − f) shrink only when the fill price is
the entry price; entry price, leverage and all other fields are unchanged.
A close of the full quantity removes the position from the map. -/
theorem Close_partial_amended (a : Account) (symbol side : String)
    (q price : ℚ) (pos : Position)
    (hl : lookupKey a.positions (positionKey symbol side) = some pos)
    (hq0 : 0 < q) :
    (q < pos.quantity →
      lookupKey ((a.Close symbol side q price).1).positions (positionKey symbol side)
        = some { pos with
            quantity := pos.quantity * (1 - q / pos.quantity)
            margin := pos.margin * (1 - q / pos.quantity)
            accumulatedFee := pos.accumulatedFee * (1 - q / pos.quantity)
            notional := pos.notional - a.applySlippage price side false * q })
    ∧ (q = pos.quantity →
      lookupKey ((a.Close symbol side q price).1).positions (positionKey symbol side)
        = none) := by
  have h0 : ¬ q ≤ 0 := not_le.mpr hq0
  constructor
  · intro hlt
    have hQ : (0 : ℚ) < pos.quantity := lt_trans hq0 hlt
    have hQ0 : pos.quantity ≠ 0 := ne_of_gt hQ
    have hnlt : ¬ pos.quantity < q := not_lt.mpr (le_of_lt hlt)
    have hnle : ¬ pos.quantity ≤ q := not_le.mpr hlt
    have hquant : pos.quantity - q = pos.quantity * (1 - q / pos.quantity) := by
      field_simp
    have hmar : pos.margin - pos.margin * (q / pos.quantity)
        = pos.margin * (1 - q / pos.quantity) := by
      field_simp
      ring
    have hfee : pos.accumulatedFee - pos.accumulatedFee * (q / pos.quantity)
        = pos.accumulatedFee * (1 - q / pos.quantity) := by
      field_simp
      ring
    simp only [Account.Close, hl, h0, hnlt, hnle, false_or, if_false,
      ite_false, lookupKey_setKey_self]
    rw [hquant, hmar, hfee]
  · intro heq
    have hnlt : ¬ pos.quantity < q := by rw [heq]; exact lt_irrefl _
    have hle : pos.quantity ≤ q := le_of_eq heq.symm
    simp only [Account.Close, hl, h0, hnlt, false_or, if_false, ite_false, hle,
      if_true, lookupKey_eraseKey_self]

/-- Witness for the amended C3 at the reference position: closing 0.005 of
the 0.01 position at 55000 yields the predicted shrunken position. -/
theorem Close_partial_amended_witness :
    lookupKey scenarioOpen.1.positions (positionKey "BTCUSDT" "long") = some scenarioPos
    ∧ (0 : ℚ) < 1/200
    ∧ (1/200 : ℚ) < scenarioPos.quantity
    ∧ lookupKey ((scenarioOpen.1.Close "BTCUSDT" "long" (1/200) 55000).1).positions
        (positionKey "BTCUSDT" "long")
      = some { scenarioPos with
          quantity := scenarioPos.quantity * (1 - (1/200) / scenarioPos.quantity)
          margin := scenarioPos.margin * (1 - (1/200) / scenarioPos.quantity)
          accumulatedFee := scenarioPos.accumulatedFee * (1 - (1/200) / scenarioPos.quantity)
          notional := scenarioPos.notional
            - scenarioOpen.1.applySlippage 55000 "long" false * (1/200) } := by
  have hl : lookupKey scenarioOpen.1.positions (positionKey "BTCUSDT" "long")
      = some scenarioPos := by
    norm_num [scenarioOpen, Account.Open, NewAccount, Account.applySlippage,
      Account.computeLiquidationPrice, positionKey, lookupKey, setKey, scenarioPos]
  have hq : (1/200 : ℚ) < scenarioPos.quantity := by norm_num [scenarioPos]
  exact ⟨hl, by norm_num, hq,
    (Close_partial_amended scenarioOpen.1 "BTCUSDT" "long" (1/200) 55000
      scenarioPos hl (by norm_num)).1 hq⟩

/-! ## Claim C6: error handling of `Close` -/

/-- C6: `Close` with no position at (symbol, side) fails with
`PositionNotFound` and leaves the account unchanged; with an existing
position and a requested quantity that is ≤ 0 or exceeds the position's
quantity, the whole position is closed without error and removed from the
map. -/
theorem Close_not_found_and_full_fallback (a : Account) (symbol side : String)
    (q price : ℚ) :
    (lookupKey a.positions (positionKey symbol side) = none →
      a.Close symbol side q price = (a, .error .positionNotFound))
    ∧ (∀ pos, lookupKey a.positions (positionKey symbol side) = some pos →
        (q ≤ 0 ∨ pos.quantity < q) →
        (∃ r, (a.Close symbol side q price).2 = .ok r)
        ∧ lookupKey ((a.Close symbol side q price).1).positions
            (positionKey symbol side) = none) := by
  constructor
  · intro hl
    simp [Account.Close, hl]
  · intro pos hl hfall
    have hq : (if q ≤ 0 ∨ pos.quantity < q then pos.quantity else q) = pos.quantity :=
      if_pos hfall
    constructor
    · rcases hr : (a.Close symbol side q price).2 with err | r
      · exfalso
        revert hr
        simp [Account.Close, hl]
      · exact ⟨r, rfl⟩
    · simp only [Account.Close, hl, hq, le_refl, if_true, lookupKey_eraseKey_self]

/-- Witness for C6: closing on an empty account fails with
`PositionNotFound` and returns the account unchanged. -/
theorem Close_not_found_witness :
    lookupKey (NewAccount 1000 4 0).positions (positionKey "BTCUSDT" "long") = none
    ∧ (NewAccount 1000 4 0).Close "BTCUSDT" "long" 1 50000
        = (NewAccount 1000 4 0, .error .positionNotFound) :=
  ⟨rfl, (Close_not_found_and_full_fallback (NewAccount 1000 4 0) "BTCUSDT" "long"
      1 50000).1 rfl⟩

/-! ## Claim C9: adding to a position keeps the stored leverage -/

/-- C9: when `Open` adds to an existing (symbol, side) position, the stored
leverage field stays the original one whatever leverage the add passes, and
the recomputed liquidation price uses that original leverage (and the
position's stored side) — while the margin contributed by the add is computed
from the add's own leverage argument. -/
theorem Open_add_keeps_original_leverage (a : Account) (symbol side : String)
    (q : ℚ) (lev2 : ℤ) (price : ℚ) (ts : ℤ) (pos : Position)
    (hl : lookupKey a.positions (positionKey symbol side) = some pos)
    (hq : 0 < q) (hlev2 : 0 < lev2)
    (hc : a.applySlippage price side true * q / (lev2 : ℚ)
        + a.applySlippage price side true * q * a.feeRate ≤ a.cash) :
    ∃ pos', lookupKey ((a.Open symbol side q lev2 price ts).1).positions
        (positionKey symbol side) = some pos'
      ∧ pos'.leverage = pos.leverage
      ∧ pos'.liquidationPrice
          = Account.computeLiquidationPrice pos'.entryPrice pos.leverage pos.side
      ∧ pos'.margin = pos.margin + a.applySlippage price side true * q / (lev2 : ℚ) := by
  have h1 : ¬ q ≤ 0 := not_le.mpr hq
  have hL2 : ¬ lev2 ≤ 0 := not_le.mpr hlev2
  have hnc : ¬ a.cash < a.applySlippage price side true * q / (lev2 : ℚ)
      + a.applySlippage price side true * q * a.feeRate := not_lt.mpr hc
  refine ⟨{ pos with
      entryPrice := (pos.entryPrice * pos.quantity + a.applySlippage price side true * q)
        / (pos.quantity + q)
      quantity := pos.quantity + q
      margin := pos.margin + a.applySlippage price side true * q / (lev2 : ℚ)
      notional := pos.notional + a.applySlippage price side true * q
      accumulatedFee := pos.accumulatedFee + a.applySlippage price side true * q * a.feeRate
      liquidationPrice := Account.computeLiquidationPrice
        ((pos.entryPrice * pos.quantity + a.applySlippage price side true * q)
          / (pos.quantity + q)) pos.leverage pos.side }, ?_, rfl, rfl, rfl⟩
  simp only [Account.Open, h1, hL2, if_false, ite_false, hnc, hl,
    lookupKey_setKey_self]

/-! ## Claim C4: weighted-average entry across two opens -/

/-- C4: after two successful opens into the same (symbol, side) key — the
first creating the position with quantity `q1` at fill price `e1`, the second
adding `q2` at fill price `e2` — the position has entry price
`(e1·q1 + e2·q2)/(q1 + q2)`, quantity `q1 + q2`, margin, notional and
accumulated fee summed across the two opens, and a liquidation price
recomputed from the new weighted entry (with the position's stored leverage,
i.e. the first open's). -/
theorem Open_twice_weighted_entry (a : Account) (symbol side : String)
    (q1 q2 : ℚ) (lev1 lev2 : ℤ) (p1 p2 : ℚ) (t1 t2 : ℤ)
    (h0 : lookupKey a.positions (positionKey symbol side) = none)
    (hq1 : 0 < q1) (hq2 : 0 < q2) (hlev1 : 0 < lev1) (hlev2 : 0 < lev2)
    (hc1 : a.applySlippage p1 side true * q1 / (lev1 : ℚ)
        + a.applySlippage p1 side true * q1 * a.feeRate ≤ a.cash)
    (hc2 : (a.Open symbol side q1 lev1 p1 t1).1.applySlippage p2 side true * q2 / (lev2 : ℚ)
        + (a.Open symbol side q1 lev1 p1 t1).1.applySlippage p2 side true * q2
          * (a.Open symbol side q1 lev1 p1 t1).1.feeRate
        ≤ (a.Open symbol side q1 lev1 p1 t1).1.cash) :
    lookupKey (((a.Open symbol side q1 lev1 p1 t1).1.Open symbol side q2 lev2 p2 t2).1).positions
        (positionKey symbol side)
      = some { symbol := symbol, side := side
               quantity := q1 + q2
               entryPrice := (a.applySlippage p1 side true * q1
                 + (a.Open symbol side q1 lev1 p1 t1).1.applySlippage p2 side true * q2)
                 / (q1 + q2)
               leverage := lev1
               margin := a.applySlippage p1 side true * q1 / (lev1 : ℚ)
                 + (a.Open symbol side q1 lev1 p1 t1).1.applySlippage p2 side true * q2 / (lev2 : ℚ)
               notional := a.applySlippage p1 side true * q1
                 + (a.Open symbol side q1 lev1 p1 t1).1.applySlippage p2 side true * q2
               liquidationPrice := Account.computeLiquidationPrice
                 ((a.applySlippage p1 side true * q1
                   + (a.Open symbol side q1 lev1 p1 t1).1.applySlippage p2 side true * q2)
                   / (q1 + q2))
                 lev1 side
               openTime := t1
               accumulatedFee := a.applySlippage p1 side true * q1 * a.feeRate
                 + (a.Open symbol side q1 lev1 p1 t1).1.applySlippage p2 side true * q2
                   * (a.Open symbol side q1 lev1 p1 t1).1.feeRate } := by
  have h1 : ¬ q1 ≤ 0 := not_le.mpr hq1
  have h2 : ¬ q2 ≤ 0 := not_le.mpr hq2
  have hL1 : ¬ lev1 ≤ 0 := not_le.mpr hlev1
  have hL2 : ¬ lev2 ≤ 0 := not_le.mpr hlev2
  have hnc1 : ¬ a.cash < a.applySlippage p1 side true * q1 / (lev1 : ℚ)
      + a.applySlippage p1 side true * q1 * a.feeRate := not_lt.mpr hc1
  have hnc2 : ¬ (a.Open symbol side q1 lev1 p1 t1).1.cash
      < (a.Open symbol side q1 lev1 p1 t1).1.applySlippage p2 side true * q2 / (lev2 : ℚ)
        + (a.Open symbol side q1 lev1 p1 t1).1.applySlippage p2 side true * q2
          * (a.Open symbol side q1 lev1 p1 t1).1.feeRate := not_lt.mpr hc2
  simp only [Account.Open, h1, hL1, if_false, ite_false, h0, hnc1] at hnc2 ⊢
  simp only [Account.applySlippage] at hnc2 ⊢
  simp only [Account.Open, h2, hL2, if_false, ite_false, hnc2,
    lookupKey_setKey_self, Account.applySlippage]

/-- Witness for C4: opening 0.01 BTCUSDT long at 50000 with leverage 10,
then 0.01 more at 60000 with leverage 5, gives entry 55000 = (500+600)/0.02,
quantity 0.02, margin 170 = 50+120, notional 1100, accumulated fee
0.44 = 0.2+0.24, and the liquidation price recomputed at entry 55000 with
the original leverage 10. -/
theorem Open_twice_weighted_entry_witness :
    lookupKey (NewAccount 1000 4 0).positions (positionKey "BTCUSDT" "long") = none
    ∧ lookupKey ((((NewAccount 1000 4 0).Open "BTCUSDT" "long" (1/100) 10 50000 0).1.Open
          "BTCUSDT" "long" (1/100) 5 60000 1).1).positions (positionKey "BTCUSDT" "long")
      = some { symbol := "BTCUSDT", side := "long", quantity := 1/50
               entryPrice := 55000, leverage := 10, margin := 170
               notional := 1100
               liquidationPrice := Account.computeLiquidationPrice 55000 10 "long"
               openTime := 0, accumulatedFee := 11/25 } := by
  refine ⟨rfl, ?_⟩
  have h := Open_twice_weighted_entry (NewAccount 1000 4 0) "BTCUSDT" "long"
    (1/100) (1/100) 10 5 50000 60000 0 1 rfl (by norm_num) (by norm_num)
    (by decide) (by decide)
    (by norm_num [NewAccount, Account.applySlippage])
    (by norm_num [NewAccount, Account.Open, Account.applySlippage,
      Account.computeLiquidationPrice, positionKey, lookupKey, setKey])
  rw [h]
  norm_num [NewAccount, Account.Open, Account.applySlippage,
    Account.computeLiquidationPrice, positionKey, lookupKey, setKey]

/-- Witness for C9: adding 0.01 at 60000 with leverage 5 to the reference
position (opened with leverage 10) keeps stored leverage 10. -/
theorem Open_add_keeps_original_leverage_witness :
    lookupKey scenarioOpen.1.positions (positionKey "BTCUSDT" "long") = some scenarioPos
    ∧ (0 : ℚ) < 1/100
    ∧ (0 : ℤ) < 5
    ∧ Option.map Position.leverage
        (lookupKey ((scenarioOpen.1.Open "BTCUSDT" "long" (1/100) 5 60000 1).1).positions
          (positionKey "BTCUSDT" "long")) = some scenarioPos.leverage := by
  have hl : lookupKey scenarioOpen.1.positions (positionKey "BTCUSDT" "long")
      = some scenarioPos := by
    norm_num [scenarioOpen, Account.Open, NewAccount, Account.applySlippage,
      Account.computeLiquidationPrice, positionKey, lookupKey, setKey, scenarioPos]
  have hc : scenarioOpen.1.applySlippage 60000 "long" true * (1/100) / ((5 : ℤ) : ℚ)
      + scenarioOpen.1.applySlippage 60000 "long" true * (1/100) * scenarioOpen.1.feeRate
      ≤ scenarioOpen.1.cash := by
    norm_num [scenarioOpen, Account.Open, NewAccount, Account.applySlippage,
      Account.computeLiquidationPrice, positionKey, lookupKey, setKey]
  obtain ⟨pos', hlook, hlev, _, _⟩ :=
    Open_add_keeps_original_leverage scenarioOpen.1 "BTCUSDT" "long" (1/100) 5
      60000 1 scenarioPos hl (by norm_num) (by decide) hc
  exact ⟨hl, by norm_num, by decide, by rw [hlook]; simp [hlev]⟩

/-! ## Claim C8: `Manager.Delete` -/

/-- C8: `Delete` on a known run whose status is Running fails with
`CannotDeleteRunning` and leaves the manager's bookkeeping unchanged;
`Delete` on a known run in any other status succeeds and removes the runner,
the metadata snapshot and the cancellation handle for that run ID. -/
theorem Delete_bookkeeping (m : Manager) (runID : String) (r : Runner)
    (hl : lookupKey m.runners runID = some r) :
    (r.status = .running → m.Delete runID = (m, some .cannotDeleteRunning))
    ∧ (r.status ≠ .running →
        (m.Delete runID).2 = none
        ∧ lookupKey (m.Delete runID).1.runners runID = none
        ∧ lookupKey (m.Delete runID).1.metadata runID = none
        ∧ lookupKey (m.Delete runID).1.cancels runID = none) := by
  constructor
  · intro hs
    simp [Manager.Delete, hl, hs]
  · intro hs
    simp [Manager.Delete, hl, hs, lookupKey_eraseKey_self]

/-- Witness for C8: deleting a completed run removes all three bookkeeping
entries. -/
theorem Delete_bookkeeping_witness :
    lookupKey ([("bt_1", ({ status := .completed } : Runner))]) "bt_1"
      = some { status := .completed }
    ∧ (({ status := .completed } : Runner).status ≠ .running)
    ∧ ((⟨[("bt_1", { status := .completed })], [("bt_1", .completed)],
          [("bt_1", ())]⟩ : Manager).Delete "bt_1").2 = none
    ∧ lookupKey ((⟨[("bt_1", { status := .completed })], [("bt_1", .completed)],
          [("bt_1", ())]⟩ : Manager).Delete "bt_1").1.runners "bt_1" = none
    ∧ lookupKey ((⟨[("bt_1", { status := .completed })], [("bt_1", .completed)],
          [("bt_1", ())]⟩ : Manager).Delete "bt_1").1.metadata "bt_1" = none
    ∧ lookupKey ((⟨[("bt_1", { status := .completed })], [("bt_1", .completed)],
          [("bt_1", ())]⟩ : Manager).Delete "bt_1").1.cancels "bt_1" = none := by
  have h := (Delete_bookkeeping
    (⟨[("bt_1", { status := .completed })], [("bt_1", .completed)],
      [("bt_1", ())]⟩ : Manager) "bt_1" { status := .completed } rfl).2
    (by decide)
  exact ⟨rfl, by decide, h.1, h.2.1, h.2.2.1, h.2.2.2⟩

/-! ## Claim C7: metrics of a flat equity curve -/

theorem foldl_add_eq_of_zero (g : ℚ → ℚ) :
    ∀ (l : List ℚ) (acc : ℚ), (∀ v ∈ l, g v = 0) →
      l.foldl (fun a v => a + g v) acc = acc := by
  intro l
  induction l with
  | nil => intro acc _; rfl
  | cons x t ih =>
    intro acc h
    have hx : g x = 0 := h x (by simp)
    simp only [List.foldl_cons, hx, add_zero]
    exact ih acc (fun v hv => h v (List.mem_cons_of_mem _ hv))

theorem sumF_eq_zero {l : List ℚ} (h : ∀ v ∈ l, v = 0) : sumF l = 0 :=
  foldl_add_eq_of_zero (fun v => v) l 0 h

theorem mean_eq_zero {l : List ℚ} (h : ∀ v ∈ l, v = 0) : mean l = 0 := by
  by_cases hl : l.length = 0
  · simp [mean, hl]
  · simp [mean, hl, sumF_eq_zero h]

theorem varianceF_eq_zero {l : List ℚ} (h : ∀ v ∈ l, v = 0) : varianceF l = 0 := by
  by_cases hl : l.length ≤ 1
  · simp [varianceF, hl]
  · have hfold := foldl_add_eq_of_zero (fun v => (v - mean l) * (v - mean l)) l 0
      (fun v hv => by rw [h v hv, mean_eq_zero h]; ring)
    simp only [varianceF, hl, if_false, ite_false]
    rw [hfold]
    simp

theorem stdDevF_eq_zero {l : List ℚ} (h : ∀ v ∈ l, v = 0) : stdDevF l = 0 := by
  by_cases hl : l.length ≤ 1
  · simp [stdDevF, hl]
  · simp [stdDevF, hl, varianceF_eq_zero h]

theorem returnsOf_flat (v : ℚ) :
    ∀ (c : List EquityPoint), (∀ p ∈ c, p.equity = v) →
      ∀ r ∈ returnsOf c, r = 0 := by
  intro c
  induction c with
  | nil => intro _ r hr; simp [returnsOf] at hr
  | cons x t ih =>
    intro hf r hr
    cases t with
    | nil => simp [returnsOf] at hr
    | cons y t' =>
      have hx : x.equity = v := hf x (by simp)
      have hy : y.equity = v := hf y (by simp)
      simp only [returnsOf, List.tail_cons, List.zipWith_cons_cons,
        List.mem_cons] at hr
      rcases hr with hr | hr
      · rw [hx, hy] at hr
        simp [hr]
      · exact ih (fun p hp => hf p (List.mem_cons_of_mem _ hp)) r
          (by simpa [returnsOf] using hr)

theorem maxDDLoop_flat (v : ℚ) :
    ∀ (c : List EquityPoint), (∀ p ∈ c, p.equity = v) →
      maxDDLoop c v 0 = (v, 0) := by
  intro c
  induction c with
  | nil => intro _; rfl
  | cons p t ih =>
    intro h
    have hp : p.equity = v := h p (by simp)
    simp only [maxDDLoop, List.foldl_cons, hp, lt_irrefl, if_false, ite_false,
      sub_self, zero_div, ite_self]
    exact ih (fun x hx => h x (List.mem_cons_of_mem _ hx))

/-- C7: on a flat equity curve (every point carries the same equity `v`, at
least one point) and any trade list, `CalculateMetrics` yields a Sharpe
ratio of 0 and a max drawdown percentage of 0. -/
theorem flat_curve_zero_sharpe_and_drawdown (initialBalance v : ℚ)
    (curve : List EquityPoint) (trades : List TradeEvent)
    (hne : curve ≠ [])
    (hflat : ∀ p ∈ curve, p.equity = v) :
    (CalculateMetrics initialBalance curve trades).sharpeRatio = 0
    ∧ (CalculateMetrics initialBalance curve trades).maxDrawdownPct = 0 := by
  cases curve with
  | nil => exact absurd rfl hne
  | cons first rest =>
    have hret : ∀ r ∈ returnsOf (first :: rest), r = 0 :=
      returnsOf_flat v (first :: rest) hflat
    have hstd : stdDevF (returnsOf (first :: rest)) = 0 := stdDevF_eq_zero hret
    have hfv : first.equity = v := hflat first (by simp)
    have hdd : maxDDLoop (first :: rest) first.equity 0 = (first.equity, 0) := by
      rw [hfv]
      exact maxDDLoop_flat v (first :: rest) hflat
    constructor
    · simp [CalculateMetrics, hstd]
    · simp [CalculateMetrics, hdd]

/-- Witness for C7: a two-point flat curve at equity 1000 with no trades has
Sharpe 0 and max drawdown 0%. -/
theorem flat_curve_witness :
    ([⟨0, 1000⟩, ⟨1, 1000⟩] : List EquityPoint) ≠ []
    ∧ (∀ p ∈ ([⟨0, 1000⟩, ⟨1, 1000⟩] : List EquityPoint), p.equity = 1000)
    ∧ (CalculateMetrics 1000 [⟨0, 1000⟩, ⟨1, 1000⟩] []).sharpeRatio = 0
    ∧ (CalculateMetrics 1000 [⟨0, 1000⟩, ⟨1, 1000⟩] []).maxDrawdownPct = 0 := by
  have hflat : ∀ p ∈ ([⟨0, 1000⟩, ⟨1, 1000⟩] : List EquityPoint),
      p.equity = 1000 := by
    intro p hp
    simp only [List.mem_cons, List.not_mem_nil, or_false] at hp
    rcases hp with h | h <;> subst h <;> rfl
  have h := flat_curve_zero_sharpe_and_drawdown 1000 1000
    [⟨0, 1000⟩, ⟨1, 1000⟩] [] (by simp) hflat
  exact ⟨by simp, hflat, h.1, h.2⟩

/-! ## Claim C5: per-symbol win rate -/

/-- A winning long trade on symbol AAA (net realized P&L +1). -/
def tradeWinA : TradeEvent :=
  { timestamp := 0, symbol := "AAA", action := "close", side := "long"
    quantity := 1, price := 10, fee := 0, realizedPnL := 1, leverage := 1
    cycle := 0, liquidationFlag := false, note := "" }

/-- A losing long trade on symbol BBB (net realized P&L −1). -/
def tradeLossB : TradeEvent :=
  { timestamp := 1, symbol := "BBB", action := "close", side := "long"
    quantity := 1, price := 10, fee := 0, realizedPnL := -1, leverage := 1
    cycle := 0, liquidationFlag := false, note := "" }

/-- C5 (code bug): with one winning trade on AAA and one losing trade on
BBB, the code assigns symbol BBB a win rate of 100% although BBB's only
counted trade lost (total P&L −1): `SymbolStats.WinRate` is computed from
the account-wide winning-trade count, not the symbol's own winning trades
(`account.go` line 439). -/
theorem symbol_winrate_uses_global_wins :
    Option.map SymbolStats.winRate
      (lookupKey (CalculateMetrics 1000 [⟨0, 1000⟩] [tradeWinA, tradeLossB]).symbolStats "BBB")
      = some 100
    ∧ Option.map SymbolStats.totalPnL
      (lookupKey (CalculateMetrics 1000 [⟨0, 1000⟩] [tradeWinA, tradeLossB]).symbolStats "BBB")
      = some (-1)
    ∧ (CalculateMetrics 1000 [⟨0, 1000⟩] [tradeWinA, tradeLossB]).winningTrades = 1 := by
  have hAB : ("AAA" : String) ≠ "BBB" := by decide
  have hcl : ("close" : String) ≠ "liquidated" := by decide
  norm_num [CalculateMetrics, tradeLoop, tradeStep, finalizeSymbolStats,
    tradeWinA, tradeLossB, lookupKey, setKey, hAB, hcl]

/-! ## Claim C10: `CheckLiquidation` skips symbols absent from the price map -/

/-- Walk invariant for C10: the loop of `CheckLiquidation` preserves the
binding of any key whose position's symbol is absent from the price map,
provided every key of the position map is the `positionKey` of its value
(which `Open` guarantees, the map being keyed by `positionKey`). -/
theorem checkLiquidationAux_preserves (pm : List (String × ℚ)) (k : String)
    (pos : Position) (habs : lookupKey pm pos.symbol = none) :
    ∀ (entries : List (String × Position)) (acc : Account),
      (∀ e ∈ acc.positions, e.1 = positionKey e.2.symbol e.2.side) →
      lookupKey acc.positions k = some pos →
      lookupKey ((Account.checkLiquidationAux pm acc entries).1).positions k
        = some pos := by
  intro entries
  induction entries with
  | nil =>
    intro acc _ hk
    exact hk
  | cons e rest ih =>
    intro acc hwf hk
    rcases hle : lookupKey acc.positions e.1 with _ | pos2
    · simp only [Account.checkLiquidationAux, hle]
      exact ih acc hwf hk
    · rcases hpm : lookupKey pm pos2.symbol with _ | price
      · simp only [Account.checkLiquidationAux, hle, hpm]
        exact ih acc hwf hk
      · have hkey : e.1 = positionKey pos2.symbol pos2.side :=
          hwf (e.1, pos2) (mem_of_lookupKey hle)
        have hne : e.1 ≠ k := by
          intro hek
          rw [hek, hk] at hle
          injection hle with h2
          rw [← h2, habs] at hpm
          exact Option.noConfusion hpm
        have hlook2 : lookupKey acc.positions (positionKey pos2.symbol pos2.side)
            = some pos2 := by
          rw [← hkey]
          exact hle
        simp only [Account.checkLiquidationAux, hle, hpm]
        by_cases hb : (if pos2.side = "long" then decide (price ≤ pos2.liquidationPrice)
            else if pos2.side = "short" then decide (pos2.liquidationPrice ≤ price)
            else false) = true
        · rw [if_pos hb]
          rcases hcl2 : acc.Close pos2.symbol pos2.side pos2.quantity
              pos2.liquidationPrice with ⟨a2, r⟩
          rcases r with err | vals
          · exfalso
            simp [Account.Close, hlook2] at hcl2
          · show lookupKey ((Account.checkLiquidationAux pm
                { a2 with positions := eraseKey a2.positions e.1 } rest).1).positions k
              = some pos
            simp only [Account.Close, hlook2, ite_self, le_refl, if_true,
              Prod.mk.injEq] at hcl2
            have ha2 : a2.positions
                = eraseKey acc.positions (positionKey pos2.symbol pos2.side) := by
              rw [← hcl2.1]
            apply ih
            · intro e2 he2
              apply hwf
              have h3 := mem_of_mem_eraseKey (show e2 ∈ eraseKey a2.positions e.1 from he2)
              rw [ha2] at h3
              exact mem_of_mem_eraseKey h3
            · show lookupKey (eraseKey a2.positions e.1) k = some pos
              rw [lookupKey_eraseKey_ne _ _ _ hne, ha2, ← hkey,
                lookupKey_eraseKey_ne _ _ _ hne]
              exact hk
        · rw [if_neg hb]
          exact ih acc hwf hk

/-- C10: `CheckLiquidation` never liquidates a position whose symbol is
absent from the supplied price map: such a position is skipped (no fallback
to the entry price, unlike `TotalEquity`) and is still open and unchanged
after the call. -/
theorem CheckLiquidation_skips_absent_symbols (a : Account)
    (pm : List (String × ℚ)) (k : String) (pos : Position)
    (hwf : ∀ e ∈ a.positions, e.1 = positionKey e.2.symbol e.2.side)
    (hk : lookupKey a.positions k = some pos)
    (habs : lookupKey pm pos.symbol = none) :
    lookupKey ((a.CheckLiquidation pm).1).positions k = some pos :=
  checkLiquidationAux_preserves pm k pos habs a.positions a hwf hk

/-- An ETHUSDT long position used as the C10 witness. -/
def ethPosition : Position :=
  { symbol := "ETHUSDT", side := "long", quantity := 1, entryPrice := 100
    leverage := 2, margin := 50, notional := 100, liquidationPrice := 50
    openTime := 0, accumulatedFee := 0 }

/-- An account holding only the ETHUSDT long position. -/
def ethAccount : Account :=
  { cash := 100, positions := [(positionKey "ETHUSDT" "long", ethPosition)]
    realizedPnL := 0, feeRate := 0, slippageRate := 0 }

/-- Witness for C10: with a price map naming only BTCUSDT, the ETHUSDT
position survives `CheckLiquidation` unchanged. -/
theorem CheckLiquidation_skips_absent_symbols_witness :
    (∀ e ∈ ethAccount.positions, e.1 = positionKey e.2.symbol e.2.side)
    ∧ lookupKey ethAccount.positions (positionKey "ETHUSDT" "long") = some ethPosition
    ∧ lookupKey [(("BTCUSDT" : String), (42 : ℚ))] ethPosition.symbol = none
    ∧ lookupKey ((ethAccount.CheckLiquidation [("BTCUSDT", 42)]).1).positions
        (positionKey "ETHUSDT" "long") = some ethPosition := by
  refine ⟨?_, rfl, rfl, ?_⟩
  · intro e he
    simp only [ethAccount, List.mem_singleton] at he
    subst he
    rfl
  · exact CheckLiquidation_skips_absent_symbols ethAccount [("BTCUSDT", 42)]
      (positionKey "ETHUSDT" "long") ethPosition
      (by intro e he
          simp only [ethAccount, List.mem_singleton] at he
          subst he
          rfl)
      rfl rfl

end BT
